import Mathlib

set_option maxHeartbeats 1000000

/-! Verification of the QuickJS sandbox native extension (quickjs_ext.c):
the bounded console capture buffer, the bidirectional value marshalling,
the fetch effect bridge with its deferred-exception handoff, and the
post-evaluation dispatch of sandbox_eval.

Engine (QuickJS) values are modelled at the interface quickjs_ext.c uses:
numbers are exact rationals as in the design's value model, objects are
ordered property lists, and JS_ToCString fails exactly on symbols. -/

/-- Console capture buffer: the console_output, console_output_len,
console_max_size and console_truncated fields of ContextWrapper. The byte
buffer is a list of characters; allocation (capacity doubling, realloc)
always succeeds in the model. -/
structure ConsoleBuf where
  data : List Char
  maxSize : Nat
  truncated : Bool
deriving DecidableEq

/-- Buffer state at the start of an evaluation: sandbox_eval resets
console_output_len to 0 and console_truncated to 0. -/
def resetBuf (m : Nat) : ConsoleBuf :=
  ⟨[], m, false⟩

/-- append_console_output from quickjs_ext.c. A zero-length append returns
immediately; an append starting at or past the ceiling only sets the
truncated flag; otherwise the payload is clipped to the available room
(to_append = min len available) and the flag is set when clipping
happened. -/
def append_console_output (b : ConsoleBuf) (s : List Char) : ConsoleBuf :=
  if s.length = 0 then b
  else if b.maxSize ≤ b.data.length then { b with truncated := true }
  else
    { b with
        data := b.data ++ s.take (min s.length (b.maxSize - b.data.length)),
        truncated := b.truncated || decide (min s.length (b.maxSize - b.data.length) < s.length) }

/-- Whether an append gets clipped: it is nonempty and the bytes produced
would exceed the ceiling. -/
def clips (b : ConsoleBuf) (s : List Char) : Bool :=
  decide (0 < s.length) && decide (b.maxSize < b.data.length + s.length)

/-- Run a sequence of appends against the buffer. -/
def runAppends (b : ConsoleBuf) : List (List Char) → ConsoleBuf
  | [] => b
  | s :: ss => runAppends (append_console_output b s) ss

/-- Whether some append of the sequence gets clipped at its point. -/
def anyClip (b : ConsoleBuf) : List (List Char) → Bool
  | [] => false
  | s :: ss => clips b s || anyClip (append_console_output b s) ss

mutual
/-- Host (Ruby) values as seen by the marshalling layer. robj stands for
any Ruby object of a type the converter has no case for and carries the
result of its to_s. -/
inductive RubyVal where
  | rnil
  | rbool (b : Bool)
  | rint (n : Int)
  | rflt (q : ℚ)
  | rstr (s : String)
  | rsym (s : String)
  | rarr (l : RubyList)
  | rhash (ps : RubyPairs)
  | robj (toS : String)
/-- A Ruby array's elements. -/
inductive RubyList where
  | nil
  | cons (v : RubyVal) (rest : RubyList)
/-- A Ruby hash's entries, in insertion order. -/
inductive RubyPairs where
  | nil
  | cons (k : RubyVal) (v : RubyVal) (rest : RubyPairs)
end

deriving instance DecidableEq for RubyVal, RubyList, RubyPairs

mutual
/-- Engine (JavaScript) values at the interface used by quickjs_ext.c.
Numbers are exact rationals, following the design's engine-interface
value model. A function is an engine object (JS_IsObject holds for it)
carrying its own enumerable string-keyed properties. -/
inductive JSVal where
  | null
  | undefined
  | jbool (b : Bool)
  | jnum (q : ℚ)
  | jstr (s : String)
  | jarr (elems : JSList)
  | jobj (props : JSProps)
  | jfunc (props : JSProps)
  | jsym (name : String)
/-- A JS array's elements. -/
inductive JSList where
  | nil
  | cons (v : JSVal) (rest : JSList)
/-- A JS object's own enumerable string-keyed properties, in insertion
order. -/
inductive JSProps where
  | nil
  | cons (k : String) (v : JSVal) (rest : JSProps)
end

deriving instance DecidableEq for JSVal, JSList, JSProps

mutual
/-- Modelled from the engine interface: JS_ToCString. A symbol cannot be
converted (the engine throws and JS_ToCString returns NULL); every other
value converts to its string form. Container renderings are the engine's
own and are abbreviated here; no claim depends on them. -/
def jsToCString : JSVal → Option String
  | .jsym _ => none
  | .jstr s => some s
  | .null => some ("null")
  | .undefined => some ("undefined")
  | .jbool b => some (cond b ("true") ("false"))
  | .jnum q => some (toString q)
  | .jarr l => (jsListStrings l).map (fun parts => String.intercalate (",") parts)
  | .jobj _ => some ("[object Object]")
  | .jfunc _ => some ("function")
termination_by structural v => v
/-- Element renderings of an array: null and undefined render empty, a
symbol element fails the whole conversion. -/
def jsListStrings : JSList → Option (List String)
  | .nil => some []
  | .cons v rest =>
    match jsListStrings rest with
    | none => none
    | some parts =>
      match v with
      | .null => some (("") :: parts)
      | .undefined => some (("") :: parts)
      | _ => (jsToCString v).map (fun s => s :: parts)
termination_by structural l => l
end

/-- Property lookup on an ordered property list. -/
def propsGet : JSProps → String → JSVal
  | .nil, _ => .undefined
  | .cons k' v rest, k => if k' = k then v else propsGet rest k

/-- Modelled from the engine interface: JS_GetPropertyStr on an ordinary
object; a missing property reads as undefined and non-objects have no
properties here. -/
def jsGetPropStr : JSVal → String → JSVal
  | .jobj props, k => propsGet props k
  | .jfunc props, k => propsGet props k
  | _, _ => .undefined

/-- Modelled from the engine interface: JS_SetPropertyStr on an ordinary
object; an existing key is overwritten in place, a new key is appended in
insertion order. -/
def objSet : JSProps → String → JSVal → JSProps
  | .nil, k, v => .cons k v .nil
  | .cons k' v' rest, k, v =>
    if k' = k then .cons k v rest else .cons k' v' (objSet rest k v)

/-- Concatenation of property lists. -/
def propsApp : JSProps → JSProps → JSProps
  | .nil, q => q
  | .cons k v rest, q => .cons k v (propsApp rest q)

/-- True when no property of the list has the given key. -/
def keyFree : JSProps → String → Bool
  | .nil, _ => true
  | .cons k' _ rest, k => decide (k' ≠ k) && keyFree rest k

/-- Modelled from the host interface: Ruby to_s, used by the hash-key
fallback in hash_foreach_cb. Container renderings are abbreviated; no
claim depends on them. -/
def rubyToS : RubyVal → String
  | .rnil => ("")
  | .rbool b => cond b ("true") ("false")
  | .rint n => toString n
  | .rflt q => toString q
  | .rstr s => s
  | .rsym s => s
  | .rarr _ => ("[...]")
  | .rhash _ => ("\x7b...\x7d")
  | .robj t => t

/-- Key conversion in hash_foreach_cb: a symbol through rb_id2name, a
string as is, anything else through to_s. -/
def keyToJsString : RubyVal → String
  | .rsym s => s
  | .rstr s => s
  | k => rubyToS k

/-- FIXNUM_MIN on a 64-bit host: the negative of 2 to the 62nd. -/
def fixnumMin : Int := -4611686018427387904

/-- FIXNUM_MAX on a 64-bit host: 2 to the 62nd, minus one. -/
def fixnumMax : Int := 4611686018427387903

mutual
/-- ruby_to_js from quickjs_ext.c: nil, booleans, numbers (fixnums through
JS_NewInt64, bignums and floats through a double, all exact in this
model), strings, symbols by name, arrays by positional assignment, hashes
through rb_hash_foreach with hash_foreach_cb, and anything else through
its to_s. -/
def ruby_to_js : RubyVal → JSVal
  | .rnil => .null
  | .rbool b => .jbool b
  | .rint n => .jnum (n : ℚ)
  | .rflt q => .jnum q
  | .rstr s => .jstr s
  | .rsym s => .jstr s
  | .rarr l => .jarr (rubyListToJs l)
  | .rhash ps => .jobj (rubyHashToObj .nil ps)
  | .robj t => .jstr t
termination_by structural v => v
/-- Array conversion: JS_SetPropertyUint32 at indices 0..len-1 in order. -/
def rubyListToJs : RubyList → JSList
  | .nil => .nil
  | .cons v rest => .cons (ruby_to_js v) (rubyListToJs rest)
termination_by structural l => l
/-- The rb_hash_foreach loop: each entry renders its key, converts its
value and sets the property on the object being built (the body of
hash_foreach_cb), threading the accumulator. -/
def rubyHashToObj : JSProps → RubyPairs → JSProps
  | acc, .nil => acc
  | acc, .cons k v rest => rubyHashToObj (objSet acc (keyToJsString k) (ruby_to_js v)) rest
termination_by structural _ ps => ps
end

/-- hash_foreach_cb from quickjs_ext.c: render the key to a string,
convert the value, and set the property on the object being built. One
rb_hash_foreach step of rubyHashToObj is exactly this callback. -/
def hash_foreach_cb (props : JSProps) (k v : RubyVal) : JSProps :=
  objSet props (keyToJsString k) (ruby_to_js v)

mutual
/-- js_to_ruby from quickjs_ext.c: null and undefined to nil, booleans,
numbers to a fixnum when integral and within the native small-integer
range and to a float otherwise, strings, arrays elementwise, objects
(functions included, since JS_IsObject holds for them) as hashes of their
own enumerable string-keyed properties, and anything else (symbols) to
nil. -/
def js_to_ruby : JSVal → RubyVal
  | .null => .rnil
  | .undefined => .rnil
  | .jbool b => .rbool b
  | .jnum q =>
    if q.den = 1 ∧ fixnumMin ≤ q.num ∧ q.num ≤ fixnumMax then .rint q.num else .rflt q
  | .jstr s => .rstr s
  | .jarr l => .rarr (jsListToRuby l)
  | .jobj props => .rhash (jsPropsToRuby props)
  | .jfunc props => .rhash (jsPropsToRuby props)
  | .jsym _ => .rnil
termination_by structural v => v
/-- Array conversion: read length, then indices 0..len-1 in order. -/
def jsListToRuby : JSList → RubyList
  | .nil => .nil
  | .cons v rest => .cons (js_to_ruby v) (jsListToRuby rest)
termination_by structural l => l
/-- Object conversion: own enumerable string-keyed properties in order,
keys as Ruby strings. -/
def jsPropsToRuby : JSProps → RubyPairs
  | .nil => .nil
  | .cons k v rest => .cons (.rstr k) (js_to_ruby v) (jsPropsToRuby rest)
termination_by structural ps => ps
end

/-- The argument loop of js_console_log: a single-space separator before
every argument but the first, then the stringified argument; an argument
the engine cannot stringify is skipped. -/
def logArgs (b : ConsoleBuf) (first : Bool) : List JSVal → ConsoleBuf
  | [] => b
  | a :: rest =>
    let b1 := if first then b else append_console_output b [' ']
    let b2 :=
      match jsToCString a with
      | some s => append_console_output b1 s.data
      | none => b1
    logArgs b2 false rest

/-- js_console_log from quickjs_ext.c, shared by console.log, console.warn
and console.error: the argument loop followed by a newline byte. -/
def js_console_log (b : ConsoleBuf) (args : List JSVal) : ConsoleBuf :=
  append_console_output (logArgs b true args) ['\n']

/-- A host exception class: the three reserved effect-error classes
(HTTPBlockedError, HTTPLimitError, HTTPError) and any other class by
name. -/
inductive RubyExcClass where
  | httpBlocked
  | httpLimit
  | httpError
  | other (name : String)
deriving DecidableEq

/-- A host exception: its class and its message. -/
structure RubyExc where
  cls : RubyExcClass
  msg : String
deriving DecidableEq

/-- The structured response returned by the registered handler: a Ruby
hash read at the :status, :statusText and :body entries, each possibly
absent. -/
structure RubyResponse where
  status : Option Int
  statusText : Option String
  body : Option String
deriving DecidableEq

/-- The registered Ruby effect handler, called with method, url, body and
headers; it returns a response or raises. -/
def HttpHandler : Type :=
  String → String → Option String → RubyVal → Except RubyExc RubyResponse

/-- The per-instance state the fetch bridge touches: the rb_http_callback
and pending_ruby_exception fields of ContextWrapper. -/
structure FetchState where
  httpCallback : Option HttpHandler
  pending : Option RubyExc

/-- What a fetch call hands back to the engine: a script-visible thrown
error or a result value. -/
inductive FetchResult where
  | throwErr (msg : String)
  | ok (v : JSVal)

/-- Outcome of a fetch call: its result, the instance state afterwards,
and whether the registered handler was invoked. -/
structure FetchOut where
  result : FetchResult
  state : FetchState
  invoked : Bool

/-- The options argument: a present, non-undefined, non-null second
argument. -/
def fetchOpts : List JSVal → Option JSVal
  | [] => none
  | o :: _ =>
    match o with
    | .undefined => none
    | .null => none
    | o => some o

/-- Extraction of options.method: default GET, also when the property is
absent, null, or unreadable as a string. -/
def fetchMethod (rest : List JSVal) : String :=
  match fetchOpts rest with
  | none => ("GET")
  | some o =>
    match jsGetPropStr o ("method") with
    | .undefined => ("GET")
    | .null => ("GET")
    | v => (jsToCString v).getD ("GET")

/-- Extraction of options.body: absent, null or unreadable maps to the nil
body. -/
def fetchBody (rest : List JSVal) : Option String :=
  match fetchOpts rest with
  | none => none
  | some o =>
    match jsGetPropStr o ("body") with
    | .undefined => none
    | .null => none
    | v => jsToCString v

/-- The script-visible response object built on handler success: status
(default 200), statusText (default OK), ok exactly for 2xx, body (default
empty), and an empty headers object, set in that order. -/
def buildResponse (resp : RubyResponse) : JSVal :=
  .jobj (objSet (objSet (objSet (objSet (objSet .nil
    ("status") (.jnum ((resp.status.getD 200 : Int) : ℚ)))
    ("statusText") (.jstr (resp.statusText.getD ("OK"))))
    ("ok") (.jbool (decide (200 ≤ resp.status.getD 200 ∧ resp.status.getD 200 < 300))))
    ("body") (.jstr (resp.body.getD (""))))
    ("headers") (.jobj .nil))

/-- js_fetch from quickjs_ext.c: fail if no callback is configured, if no
argument is given, or if the url cannot be read as a string; otherwise
invoke the handler under rb_protect with method, url, body and empty
headers. A raising handler stores the exception in the pending slot
(overwriting it) and throws a generic internal error; a returning handler
yields the response object. -/
def js_fetch (st : FetchState) (args : List JSVal) : FetchOut :=
  match st.httpCallback with
  | none => ⟨.throwErr ("fetch() is not enabled - HTTP callback not configured"), st, false⟩
  | some cb =>
    match args with
    | [] => ⟨.throwErr ("fetch() requires at least 1 argument (url)"), st, false⟩
    | target :: rest =>
      match jsToCString target with
      | none => ⟨.throwErr ("fetch() url must be a string"), st, false⟩
      | some url =>
        match cb (fetchMethod rest) url (fetchBody rest) (.rhash .nil) with
        | .error exc => ⟨.throwErr ("HTTP request failed"), { st with pending := some exc }, true⟩
        | .ok resp => ⟨.ok (buildResponse resp), st, true⟩

/-- What JS_Eval hands back: the exception marker (JS_IsException holds)
or a normal value. -/
inductive EngineResult where
  | exc
  | val (v : JSVal)
deriving DecidableEq

/-- Everything sandbox_eval inspects once JS_Eval has returned: the
timed_out flag, the engine result (a value or the exception marker), the
pending host exception, the console snapshot, and the thrown value read
by JS_GetException when the result is the exception marker. -/
structure EvalOutcome where
  timedOut : Bool
  result : EngineResult
  pending : Option RubyExc
  console : List Char
  truncated : Bool
  excVal : JSVal
deriving DecidableEq

/-- The classified error sandbox_eval raises. -/
inductive EvalRaise where
  | timeoutRaise (msg : String) (console : List Char) (truncated : Bool)
  | httpRaise (cls : RubyExcClass) (msg : String) (console : List Char) (truncated : Bool)
  | pendingRaise (exc : RubyExc)
  | syntaxRaise (msg stack : String) (console : List Char) (truncated : Bool)
  | scriptRaise (msg stack : String) (console : List Char) (truncated : Bool)
deriving DecidableEq

/-- What an evaluation hands back to the caller: a raised classified error
or a Result value with the console snapshot. -/
inductive EvalFinal where
  | raised (r : EvalRaise)
  | ok (value : RubyVal) (console : List Char) (truncated : Bool)
deriving DecidableEq

/-- Dispatch outcome together with whether JS_RunGC ran on that path. -/
structure DispatchOut where
  final : EvalFinal
  ranGC : Bool
deriving DecidableEq

/-- Stack extraction for a thrown value: the stack property when the value
is an object and the property is present, non-null and stringifiable;
the empty string otherwise. -/
def excStack (e : JSVal) : String :=
  match jsGetPropStr e ("stack") with
  | .undefined => ("")
  | .null => ("")
  | v => (jsToCString v).getD ("")

/-- The post-evaluation dispatch of sandbox_eval from quickjs_ext.c:
timeout first; then, on an engine exception, a deferred host exception
takes priority and is rebuilt with the console snapshot when its class is
one of the three reserved HTTP classes and re-raised unmodified
otherwise, after freeing the engine exception and forcing a GC pass;
otherwise the engine exception is stringified and classified as a syntax
or script error; a normal result is converted and returned after a GC
pass. -/
def sandbox_eval_dispatch (o : EvalOutcome) : DispatchOut :=
  if o.timedOut then
    ⟨.raised (.timeoutRaise ("JavaScript execution timeout exceeded") o.console o.truncated),
      false⟩
  else
    match o.result with
    | .exc =>
      match o.pending with
      | some exc =>
        if exc.cls = .httpBlocked ∨ exc.cls = .httpLimit ∨ exc.cls = .httpError then
          ⟨.raised (.httpRaise exc.cls exc.msg o.console o.truncated), true⟩
        else
          ⟨.raised (.pendingRaise exc), true⟩
      | none =>
        let msg := (jsToCString o.excVal).getD ("Unknown JavaScript error")
        let stack := excStack o.excVal
        if String.isPrefixOf ("SyntaxError") msg then
          ⟨.raised (.syntaxRaise msg stack o.console o.truncated), false⟩
        else
          ⟨.raised (.scriptRaise msg stack o.console o.truncated), false⟩
    | .val v => ⟨.ok (js_to_ruby v) o.console o.truncated, true⟩

/-- Result of sandbox_set_variable. -/
inductive SetVarResult where
  | invalidArg (msg : String)
  | okSet
deriving DecidableEq

/-- sandbox_set_variable from quickjs_ext.c: an empty name is rejected
with ArgumentError before any conversion or assignment; otherwise the
converted value is assigned onto the global object. -/
def sandbox_set_variable (globalObj : JSProps) (name : String) (value : RubyVal) :
    SetVarResult × JSProps :=
  if name = ("") then (.invalidArg ("Variable name cannot be empty"), globalObj)
  else (.okSet, objSet globalObj name (ruby_to_js value))

mutual
/-- The normalization the round trip applies within the C4 grammar: a
float with integral value in the fixnum range becomes an integer,
everything else is unchanged. -/
def rtNorm : RubyVal → RubyVal
  | .rflt q =>
    if q.den = 1 ∧ fixnumMin ≤ q.num ∧ q.num ≤ fixnumMax then .rint q.num else .rflt q
  | .rarr l => .rarr (rtNormList l)
  | .rhash ps => .rhash (rtNormPairs ps)
  | v => v
termination_by structural v => v
/-- Elementwise normalization of a sequence. -/
def rtNormList : RubyList → RubyList
  | .nil => .nil
  | .cons v rest => .cons (rtNorm v) (rtNormList rest)
termination_by structural l => l
/-- Entrywise normalization of a mapping's values. -/
def rtNormPairs : RubyPairs → RubyPairs
  | .nil => .nil
  | .cons k v rest => .cons k (rtNorm v) (rtNormPairs rest)
termination_by structural ps => ps
end

/-- True when no entry's rendered key equals the given string. -/
def pairsKeyFree : RubyPairs → String → Bool
  | .nil, _ => true
  | .cons k' _ rest, k => decide (keyToJsString k' ≠ k) && pairsKeyFree rest k

/-- Pairwise-distinct rendered keys. -/
def pairsNoDup : RubyPairs → Bool
  | .nil => true
  | .cons k _ rest => pairsKeyFree rest (keyToJsString k) && pairsNoDup rest

/-- Every rendered key of the entries is absent from the accumulator. -/
def pairsFreshIn (acc : JSProps) : RubyPairs → Bool
  | .nil => true
  | .cons k _ rest => keyFree acc (keyToJsString k) && pairsFreshIn acc rest

/-- The object a hash converts to when no key collides: its entries in
order, keys rendered, values converted. -/
def pairsToPropsPlain : RubyPairs → JSProps
  | .nil => .nil
  | .cons k v rest => .cons (keyToJsString k) (ruby_to_js v) (pairsToPropsPlain rest)

mutual
/-- The C4 value grammar: null, booleans, fixnum-range integers, floats,
strings, and nested sequences and mappings of the same; mappings have
string keys, pairwise distinct. -/
def c4ok : RubyVal → Bool
  | .rnil => true
  | .rbool _ => true
  | .rint n => decide (fixnumMin ≤ n ∧ n ≤ fixnumMax)
  | .rflt _ => true
  | .rstr _ => true
  | .rsym _ => false
  | .rarr l => c4okList l
  | .rhash ps => c4okPairs ps && pairsNoDup ps
  | .robj _ => false
termination_by structural v => v
/-- Grammar check for sequence elements. -/
def c4okList : RubyList → Bool
  | .nil => true
  | .cons v rest => c4ok v && c4okList rest
termination_by structural l => l
/-- Grammar check for mapping entries: string keys, values in grammar. -/
def c4okPairs : RubyPairs → Bool
  | .nil => true
  | .cons k v rest =>
    (match k with | .rstr _ => true | _ => false) && c4ok v && c4okPairs rest
termination_by structural ps => ps
end



theorem append_console_maxSize (b : ConsoleBuf) (s : List Char) :
    (append_console_output b s).maxSize = b.maxSize := by
  unfold append_console_output
  split
  · rfl
  · split
    · rfl
    · rfl

theorem append_console_len_le (b : ConsoleBuf) (s : List Char)
    (h : b.data.length ≤ b.maxSize) :
    (append_console_output b s).data.length ≤ b.maxSize := by
  unfold append_console_output
  split
  · exact h
  · split
    · exact h
    · rename_i h0 h1
      simp only [List.length_append, List.length_take]
      omega

theorem append_console_truncated (b : ConsoleBuf) (s : List Char) :
    (append_console_output b s).truncated = (b.truncated || clips b s) := by
  unfold append_console_output clips
  split
  · rename_i h0
    simp [h0]
  · split
    · rename_i h0 h1
      have hs : 0 < s.length := Nat.pos_of_ne_zero h0
      have h2' : b.maxSize < b.data.length + s.length := by omega
      simp [hs, h2']
    · rename_i h0 h1
      have hiff : (min s.length (b.maxSize - b.data.length) < s.length) ↔
          (0 < s.length ∧ b.maxSize < b.data.length + s.length) := by omega
      simp [hiff]

theorem runAppends_spec (ss : List (List Char)) (b : ConsoleBuf)
    (h : b.data.length ≤ b.maxSize) :
    (runAppends b ss).maxSize = b.maxSize ∧
    (runAppends b ss).data.length ≤ b.maxSize ∧
    (runAppends b ss).truncated = (b.truncated || anyClip b ss) := by
  induction ss generalizing b with
  | nil => exact ⟨rfl, h, by simp [runAppends, anyClip]⟩
  | cons s ss ih =>
    have hm := append_console_maxSize b s
    have hl := append_console_len_le b s h
    have ht := append_console_truncated b s
    have hrec := ih (append_console_output b s) (by rw [hm]; exact hl)
    refine ⟨by rw [runAppends, hrec.1, hm], by rw [runAppends]; rw [hm] at hrec; exact hrec.2.1, ?_⟩
    rw [runAppends, hrec.2.2, ht, anyClip, Bool.or_assoc]

/-- C1 (amended): starting from a reset buffer, the buffer length never
exceeds console_max_bytes and the truncated flag ends true exactly when
some append was clipped; a nonempty append starting at or past the
ceiling adds nothing and sets the flag, while a zero-length append leaves
the buffer and the flag untouched. -/
theorem C1_console_bound (m : Nat) (ss : List (List Char)) :
    (runAppends (resetBuf m) ss).data.length ≤ m ∧
    ((runAppends (resetBuf m) ss).truncated = true ↔ anyClip (resetBuf m) ss = true) ∧
    (∀ b : ConsoleBuf, ∀ s : List Char, s ≠ [] → b.maxSize ≤ b.data.length →
      (append_console_output b s).data = b.data ∧
      (append_console_output b s).truncated = true) ∧
    (∀ b : ConsoleBuf, append_console_output b [] = b) := by
  have hspec := runAppends_spec ss (resetBuf m) (by simp [resetBuf])
  refine ⟨hspec.2.1, by rw [hspec.2.2]; simp [resetBuf], ?_, ?_⟩
  · intro b s hs hceil
    have hlen : ¬ s.length = 0 := by simpa using hs
    constructor
    · unfold append_console_output
      simp [hlen, hceil]
    · unfold append_console_output
      simp [hlen, hceil]
  · intro b
    unfold append_console_output
    simp

/-- C1 witness: a nonempty append against a full one-byte buffer keeps the
data and raises the flag. -/
theorem C1_witness :
    (append_console_output ⟨['a'], 1, false⟩ ['b']).data = ['a'] ∧
    (append_console_output ⟨['a'], 1, false⟩ ['b']).truncated = true :=
  (C1_console_bound 1 []).2.2.1 ⟨['a'], 1, false⟩ ['b'] (by decide) (by decide)

/-- C1 counterexample: after one append the one-byte buffer sits exactly
at the ceiling, yet the subsequent zero-length append neither changes it
nor sets the truncated flag, contradicting the claim that every append
starting at or past the ceiling sets the flag. -/
theorem C1_counterexample :
    (append_console_output (resetBuf 1) ['a']).maxSize ≤
      (append_console_output (resetBuf 1) ['a']).data.length ∧
    append_console_output (append_console_output (resetBuf 1) ['a']) [] =
      append_console_output (resetBuf 1) ['a'] ∧
    (append_console_output (append_console_output (resetBuf 1) ['a']) []).truncated = false := by
  decide

/-- C2: when the timed_out flag is set, dispatch raises TimeoutError with
the captured console output, whatever the engine result and whatever host
exception is pending; the pending slot is never consulted on this path. -/
theorem C2_timeout_preempts (o : EvalOutcome) (h : o.timedOut = true) :
    sandbox_eval_dispatch o =
      ⟨.raised (.timeoutRaise ("JavaScript execution timeout exceeded") o.console o.truncated),
        false⟩ := by
  simp [sandbox_eval_dispatch, h]

/-- C2 witness: timeout wins even with both an engine exception and a
pending reserved-class host exception present. -/
theorem C2_witness :
    sandbox_eval_dispatch ⟨true, .exc, some ⟨.httpBlocked, ("boom")⟩, ['x'], true, .jstr ("e")⟩ =
      ⟨.raised (.timeoutRaise ("JavaScript execution timeout exceeded") ['x'] true), false⟩ :=
  C2_timeout_preempts ⟨true, .exc, some ⟨.httpBlocked, ("boom")⟩, ['x'], true, .jstr ("e")⟩ rfl

/-- C3: a raising handler stores its exception in the pending slot,
overwriting any previous value, and the call throws the generic message;
once the engine has unwound with an exception and no timeout, dispatch
re-raises the pending exception, rebuilt with the console snapshot for
the three reserved HTTP classes and unmodified otherwise, and runs a GC
pass first on both paths. -/
theorem C3_deferred_exception (cb : HttpHandler) (p : Option RubyExc) (target : JSVal)
    (rest : List JSVal) (url : String) (exc : RubyExc) (o : EvalOutcome)
    (hurl : jsToCString target = some url)
    (hcb : cb (fetchMethod rest) url (fetchBody rest) (.rhash .nil) = .error exc)
    (hto : o.timedOut = false) (hres : o.result = .exc) (hp : o.pending = some exc) :
    js_fetch ⟨some cb, p⟩ (target :: rest) =
      ⟨.throwErr ("HTTP request failed"), ⟨some cb, some exc⟩, true⟩ ∧
    sandbox_eval_dispatch o =
      (if exc.cls = .httpBlocked ∨ exc.cls = .httpLimit ∨ exc.cls = .httpError then
        ⟨.raised (.httpRaise exc.cls exc.msg o.console o.truncated), true⟩
      else ⟨.raised (.pendingRaise exc), true⟩) := by
  constructor
  · simp [js_fetch, hurl, hcb]
  · simp [sandbox_eval_dispatch, hto, hres, hp]

/-- C3 witness: a blocked-class exception raised by the handler overwrites
an older pending exception and is re-raised rebuilt with the console
snapshot after a GC pass. -/
theorem C3_witness :
    js_fetch
        ⟨some (fun _ _ _ _ => .error ⟨.httpBlocked, ("boom")⟩), some ⟨.other ("X"), ("old")⟩⟩
        [.jstr ("u")] =
      ⟨.throwErr ("HTTP request failed"),
        ⟨some (fun _ _ _ _ => .error ⟨.httpBlocked, ("boom")⟩), some ⟨.httpBlocked, ("boom")⟩⟩,
        true⟩ ∧
    sandbox_eval_dispatch ⟨false, .exc, some ⟨.httpBlocked, ("boom")⟩, ['c'], false, .null⟩ =
      ⟨.raised (.httpRaise .httpBlocked ("boom") ['c'] false), true⟩ := by
  have h := C3_deferred_exception (fun _ _ _ _ => .error ⟨.httpBlocked, ("boom")⟩)
    (some ⟨.other ("X"), ("old")⟩) (.jstr ("u")) [] ("u") ⟨.httpBlocked, ("boom")⟩
    ⟨false, .exc, some ⟨.httpBlocked, ("boom")⟩, ['c'], false, .null⟩ (by decide) rfl rfl rfl rfl
  exact ⟨h.1, by simpa using h.2⟩

/-- C7: fetch fails synchronously, with the state untouched and the
handler never invoked, when no handler is registered, when no argument is
given, or when the target cannot be read as a string. -/
theorem C7_fetch_guards (st : FetchState) (args : List JSVal)
    (h : st.httpCallback = none ∨ args = [] ∨
      (∃ a rest, args = a :: rest ∧ jsToCString a = none)) :
    ∃ msg, js_fetch st args = ⟨.throwErr msg, st, false⟩ := by
  rcases h with h | h | ⟨a, rest, hargs, ha⟩
  · exact ⟨("fetch() is not enabled - HTTP callback not configured"), by simp [js_fetch, h]⟩
  · subst h
    cases hc : st.httpCallback with
    | none => exact ⟨("fetch() is not enabled - HTTP callback not configured"),
        by simp [js_fetch, hc]⟩
    | some cb => exact ⟨("fetch() requires at least 1 argument (url)"), by simp [js_fetch, hc]⟩
  · subst hargs
    cases hc : st.httpCallback with
    | none => exact ⟨("fetch() is not enabled - HTTP callback not configured"),
        by simp [js_fetch, hc]⟩
    | some cb => exact ⟨("fetch() url must be a string"), by simp [js_fetch, hc, ha]⟩

/-- C7 witness: no handler registered and no argument given. -/
theorem C7_witness :
    ∃ msg, js_fetch ⟨none, none⟩ [] = ⟨.throwErr msg, ⟨none, none⟩, false⟩ :=
  C7_fetch_guards ⟨none, none⟩ [] (Or.inl rfl)

/-- C8: set_variable with the empty name fails with ArgumentError for
every value, leaving the global object untouched; nothing is converted or
assigned. -/
theorem C8_empty_name (globalObj : JSProps) (value : RubyVal) :
    sandbox_set_variable globalObj ("") value =
      (.invalidArg ("Variable name cannot be empty"), globalObj) := by
  simp [sandbox_set_variable]

/-- C9: console.log with no arguments appends exactly the one newline
byte through the bounded append, and an argument the engine cannot
stringify is skipped while the single-space separator before it is still
emitted. -/
theorem C9_console_log (b : ConsoleBuf) (x : JSVal) (rest : List JSVal)
    (hx : jsToCString x = none) :
    js_console_log b [] = append_console_output b ['\n'] ∧
    logArgs b false (x :: rest) = logArgs (append_console_output b [' ']) false rest := by
  constructor
  · rfl
  · simp [logArgs, hx]

/-- C9 witness: a symbol argument cannot be stringified. -/
theorem C9_witness :
    js_console_log (resetBuf 10) [] = append_console_output (resetBuf 10) ['\n'] ∧
    logArgs (resetBuf 10) false [.jsym ("s")] =
      logArgs (append_console_output (resetBuf 10) [' ']) false [] :=
  C9_console_log (resetBuf 10) (.jsym ("s")) [] (by decide)

/-- C5 counterexample: JS_IsObject holds for a function, so js_to_ruby
sends a function down the object branch and yields a (typically empty)
mapping, not the host null value the claim demands. -/
theorem C5_counterexample :
    js_to_ruby (.jfunc .nil) = .rhash .nil ∧ js_to_ruby (.jfunc .nil) ≠ .rnil := by
  constructor
  · decide
  · decide

/-- C5 (amended): a script value that is not null, undefined, a boolean,
a number, a string, an array or an object converts to the host null
value, and in particular every symbol does; a function, however, is an
engine object and converts like a plain object, to the mapping of its own
enumerable string-keyed properties. -/
theorem C5_other_values (s : String) (props : JSProps) :
    js_to_ruby (.jsym s) = .rnil ∧
    js_to_ruby (.jfunc props) = .rhash (jsPropsToRuby props) := by
  constructor
  · simp [js_to_ruby]
  · simp [js_to_ruby]

/-- C6: a fetch call whose handler returns gives the script the response
object: status defaulting to 200, statusText defaulting to OK, body
defaulting to the empty string, ok exactly for 2xx statuses, and empty
headers; the pending slot is untouched. -/
theorem C6_fetch_success (cb : HttpHandler) (p : Option RubyExc) (target : JSVal)
    (rest : List JSVal) (url : String) (resp : RubyResponse)
    (hurl : jsToCString target = some url)
    (hcb : cb (fetchMethod rest) url (fetchBody rest) (.rhash .nil) = .ok resp) :
    js_fetch ⟨some cb, p⟩ (target :: rest) =
      ⟨.ok (buildResponse resp), ⟨some cb, p⟩, true⟩ ∧
    jsGetPropStr (buildResponse resp) ("status") = .jnum ((resp.status.getD 200 : Int) : ℚ) ∧
    jsGetPropStr (buildResponse resp) ("statusText") = .jstr (resp.statusText.getD ("OK")) ∧
    jsGetPropStr (buildResponse resp) ("body") = .jstr (resp.body.getD ("")) ∧
    (jsGetPropStr (buildResponse resp) ("ok") = .jbool true ↔
      (200 ≤ resp.status.getD 200 ∧ resp.status.getD 200 < 300)) ∧
    jsGetPropStr (buildResponse resp) ("headers") = .jobj .nil := by
  refine ⟨by simp [js_fetch, hurl, hcb], ?_, ?_, ?_, ?_, ?_⟩
  · simp [buildResponse, objSet, jsGetPropStr, propsGet]
  · simp [buildResponse, objSet, jsGetPropStr, propsGet]
  · simp [buildResponse, objSet, jsGetPropStr, propsGet]
  · simp [buildResponse, objSet, jsGetPropStr, propsGet]
  · simp [buildResponse, objSet, jsGetPropStr, propsGet]

/-- C6 witness: a handler returning status 404 with defaults for the
other fields. -/
theorem C6_witness :
    js_fetch ⟨some (fun _ _ _ _ => .ok ⟨some 404, none, none⟩), none⟩ [.jstr ("u")] =
      ⟨.ok (buildResponse ⟨some 404, none, none⟩),
        ⟨some (fun _ _ _ _ => .ok ⟨some 404, none, none⟩), none⟩, true⟩ ∧
    (jsGetPropStr (buildResponse ⟨some 404, none, none⟩) ("ok") = .jbool true ↔
      (200 ≤ (404 : Int) ∧ (404 : Int) < 300)) := by
  have h := C6_fetch_success (fun _ _ _ _ => .ok ⟨some 404, none, none⟩) none (.jstr ("u"))
    [] ("u") ⟨some 404, none, none⟩ (by decide) rfl
  exact ⟨h.1, h.2.2.2.2.1⟩

theorem propsApp_nil : (p : JSProps) → propsApp p .nil = p
  | .nil => rfl
  | .cons k v rest => by rw [propsApp, propsApp_nil rest]

theorem propsApp_assoc : (p : JSProps) → (q r : JSProps) →
    propsApp (propsApp p q) r = propsApp p (propsApp q r)
  | .nil, _, _ => rfl
  | .cons k v rest, q, r => by rw [propsApp, propsApp, propsApp, propsApp_assoc rest]

theorem keyFree_app : (p : JSProps) → (q : JSProps) → (k : String) →
    keyFree (propsApp p q) k = (keyFree p k && keyFree q k)
  | .nil, q, k => by rw [propsApp, keyFree, Bool.true_and]
  | .cons k' v rest, q, k => by
    rw [propsApp, keyFree, keyFree, keyFree_app rest, Bool.and_assoc]

theorem objSet_fresh : (p : JSProps) → (k : String) → (v : JSVal) →
    keyFree p k = true → objSet p k v = propsApp p (.cons k v .nil)
  | .nil, _, _, _ => rfl
  | .cons k' v' rest, k, v, h => by
    rw [keyFree, Bool.and_eq_true, decide_eq_true_eq] at h
    rw [objSet, propsApp, if_neg h.1, objSet_fresh rest k v h.2]

theorem pairsFreshIn_nil : (ps : RubyPairs) → pairsFreshIn .nil ps = true
  | .nil => rfl
  | .cons k v rest => by
    rw [pairsFreshIn, keyFree, pairsFreshIn_nil rest, Bool.and_true]

theorem pairsFreshIn_push : (ps : RubyPairs) → (acc : JSProps) → (ks : String) → (rv : JSVal) →
    pairsFreshIn acc ps = true → pairsKeyFree ps ks = true →
    pairsFreshIn (propsApp acc (.cons ks rv .nil)) ps = true
  | .nil, _, _, _, _, _ => rfl
  | .cons k v rest, acc, ks, rv, h1, h2 => by
    rw [pairsFreshIn, Bool.and_eq_true] at h1
    rw [pairsKeyFree, Bool.and_eq_true, decide_eq_true_eq] at h2
    rw [pairsFreshIn, Bool.and_eq_true]
    refine ⟨?_, pairsFreshIn_push rest acc ks rv h1.2 h2.2⟩
    rw [keyFree_app, Bool.and_eq_true]
    refine ⟨h1.1, ?_⟩
    rw [keyFree, keyFree, Bool.and_eq_true, decide_eq_true_eq]
    exact ⟨fun hk => h2.1 hk.symm, rfl⟩

theorem rubyHashToObj_plain : (ps : RubyPairs) → (acc : JSProps) →
    pairsFreshIn acc ps = true → pairsNoDup ps = true →
    rubyHashToObj acc ps = propsApp acc (pairsToPropsPlain ps)
  | .nil, acc, _, _ => by rw [rubyHashToObj, pairsToPropsPlain, propsApp_nil]
  | .cons k v rest, acc, hf, hd => by
    rw [pairsFreshIn, Bool.and_eq_true] at hf
    rw [pairsNoDup, Bool.and_eq_true] at hd
    have hset := objSet_fresh acc (keyToJsString k) (ruby_to_js v) hf.1
    have hfresh := pairsFreshIn_push rest acc (keyToJsString k) (ruby_to_js v) hf.2 hd.1
    calc rubyHashToObj acc (.cons k v rest)
        = rubyHashToObj (objSet acc (keyToJsString k) (ruby_to_js v)) rest := by
          rw [rubyHashToObj]
      _ = propsApp (propsApp acc (.cons (keyToJsString k) (ruby_to_js v) .nil))
            (pairsToPropsPlain rest) := by
          rw [hset]; exact rubyHashToObj_plain rest _ hfresh hd.2
      _ = propsApp acc (.cons (keyToJsString k) (ruby_to_js v) (pairsToPropsPlain rest)) := by
          rw [propsApp_assoc]; rfl
      _ = propsApp acc (pairsToPropsPlain (.cons k v rest)) := by rw [pairsToPropsPlain]

/-- C10: a mapping key that is not a string is not rejected: when the
rendered keys are pairwise distinct the built object holds the entries in
order, each key rendered through keyToJsString, so every property key is
a string; symbols render by name and any other key by its string
representation. -/
theorem C10_hash_keys (ps : RubyPairs) (h : pairsNoDup ps = true) :
    ruby_to_js (.rhash ps) = .jobj (pairsToPropsPlain ps) ∧
    (∀ s : String, keyToJsString (.rsym s) = s) ∧
    (∀ n : Int, keyToJsString (.rint n) = rubyToS (.rint n)) := by
  refine ⟨?_, fun s => rfl, fun n => rfl⟩
  have hplain := rubyHashToObj_plain ps .nil (pairsFreshIn_nil ps) h
  rw [ruby_to_js, hplain]
  rfl

/-- C10 witness: a symbol key and an integer key both land as string
property keys. -/
theorem C10_witness :
    ruby_to_js (.rhash (.cons (.rsym ("a")) .rnil (.cons (.rint 1) (.rbool true) .nil))) =
      .jobj (pairsToPropsPlain (.cons (.rsym ("a")) .rnil (.cons (.rint 1) (.rbool true) .nil))) :=
  (C10_hash_keys (.cons (.rsym ("a")) .rnil (.cons (.rint 1) (.rbool true) .nil)) (by decide)).1

mutual
theorem c4RoundVal : (v : RubyVal) → c4ok v = true → js_to_ruby (ruby_to_js v) = rtNorm v
  | .rnil, _ => rfl
  | .rbool b, _ => rfl
  | .rint n, h => by
    rw [c4ok, decide_eq_true_eq] at h
    simp [ruby_to_js, js_to_ruby, rtNorm, h.1, h.2]
  | .rflt q, _ => by simp [ruby_to_js, js_to_ruby, rtNorm]
  | .rstr s, _ => rfl
  | .rsym s, h => nomatch h
  | .robj t, h => nomatch h
  | .rarr l, h => by
    rw [c4ok] at h
    simp [ruby_to_js, js_to_ruby, rtNorm, c4RoundList l h]
  | .rhash ps, h => by
    rw [c4ok, Bool.and_eq_true] at h
    have hplain := rubyHashToObj_plain ps .nil (pairsFreshIn_nil ps) h.2
    simp [ruby_to_js, js_to_ruby, rtNorm, hplain, propsApp, c4RoundPairs ps h.1]
theorem c4RoundList : (l : RubyList) → c4okList l = true →
    jsListToRuby (rubyListToJs l) = rtNormList l
  | .nil, _ => rfl
  | .cons v rest, h => by
    rw [c4okList, Bool.and_eq_true] at h
    simp [rubyListToJs, jsListToRuby, rtNormList, c4RoundVal v h.1, c4RoundList rest h.2]
theorem c4RoundPairs : (ps : RubyPairs) → c4okPairs ps = true →
    jsPropsToRuby (pairsToPropsPlain ps) = rtNormPairs ps
  | .nil, _ => rfl
  | .cons (.rstr s) v rest, h => by
    simp only [c4okPairs, Bool.true_and, Bool.and_eq_true] at h
    simp [pairsToPropsPlain, jsPropsToRuby, rtNormPairs, keyToJsString,
      c4RoundVal v h.1, c4RoundPairs rest h.2]
  | .cons .rnil _ _, h => by simp [c4okPairs] at h
  | .cons (.rbool _) _ _, h => by simp [c4okPairs] at h
  | .cons (.rint _) _ _, h => by simp [c4okPairs] at h
  | .cons (.rflt _) _ _, h => by simp [c4okPairs] at h
  | .cons (.rsym _) _ _, h => by simp [c4okPairs] at h
  | .cons (.rarr _) _ _, h => by simp [c4okPairs] at h
  | .cons (.rhash _) _ _, h => by simp [c4okPairs] at h
  | .cons (.robj _) _ _, h => by simp [c4okPairs] at h
end

/-- C4 (amended): for every host mapping with string keys, pairwise
distinct, whose values are drawn from null, booleans, integers within the
native small-integer range, floats, strings and nested
sequences/mappings of the same, converting host to script and back yields
the same mapping with keys in the same order, except that a float with
integral value in the small-integer range comes back as an integer. -/
theorem C4_round_trip (ps : RubyPairs) (h1 : c4okPairs ps = true)
    (h2 : pairsNoDup ps = true) :
    js_to_ruby (ruby_to_js (.rhash ps)) = rtNorm (.rhash ps) := by
  have h : c4ok (.rhash ps) = true := by rw [c4ok, Bool.and_eq_true]; exact ⟨h1, h2⟩
  exact c4RoundVal (.rhash ps) h

/-- C4 witness: a mapping with a float that normalizes to an integer, an
integer, and a non-integral float, all round-tripping as claimed. -/
theorem C4_witness :
    c4okPairs (.cons (.rstr ("a")) (.rflt 2)
      (.cons (.rstr ("b")) (.rint 5) (.cons (.rstr ("c")) (.rflt (5 / 2)) .nil))) = true ∧
    pairsNoDup (.cons (.rstr ("a")) (.rflt 2)
      (.cons (.rstr ("b")) (.rint 5) (.cons (.rstr ("c")) (.rflt (5 / 2)) .nil))) = true ∧
    js_to_ruby (ruby_to_js (.rhash (.cons (.rstr ("a")) (.rflt 2)
        (.cons (.rstr ("b")) (.rint 5) (.cons (.rstr ("c")) (.rflt (5 / 2)) .nil))))) =
      rtNorm (.rhash (.cons (.rstr ("a")) (.rflt 2)
        (.cons (.rstr ("b")) (.rint 5) (.cons (.rstr ("c")) (.rflt (5 / 2)) .nil)))) :=
  ⟨by decide, by decide,
    C4_round_trip (.cons (.rstr ("a")) (.rflt 2)
      (.cons (.rstr ("b")) (.rint 5) (.cons (.rstr ("c")) (.rflt (5 / 2)) .nil)))
      (by decide) (by decide)⟩

/-- C4 counterexample: the mapping holding the integer 2^62 + 1024 (a
bignum beyond FIXNUM_MAX, exactly representable as a double) comes back
holding a float, so the round trip is not structurally equal and the
difference is not the permitted float-to-integer normalization. -/
theorem C4_counterexample :
    js_to_ruby (ruby_to_js
        (.rhash (.cons (.rstr ("a")) (.rint 4611686018427388928) .nil))) =
      .rhash (.cons (.rstr ("a")) (.rflt ((4611686018427388928 : Int) : ℚ)) .nil) ∧
    js_to_ruby (ruby_to_js
        (.rhash (.cons (.rstr ("a")) (.rint 4611686018427388928) .nil))) ≠
      .rhash (.cons (.rstr ("a")) (.rint 4611686018427388928) .nil) := by
  constructor
  · decide
  · decide
